import Mathlib

/-!
Verification of the constant-pool scanner and byte patcher of `patch.rs`
(ADT Java-7 patcher).  The class file is modelled as a `List Nat` of byte
values; the file reader is modelled by a position-indexed lookup, and the
scanner `find_5_offset` together with the patcher `replace_5_as_7` are
shallow embeddings of the corresponding Rust functions.
-/

/-- Byte of a stream at a given position; `none` models end of file.
This is the model of the file reader's random access. -/
def byteAt : List Nat → Nat → Option Nat
  | [], _ => none
  | b :: _, 0 => some b
  | _ :: bs, n + 1 => byteAt bs n

/-- Model of `reader.read_byte()`: one byte plus the advanced position;
`none` models the EOF sentinel (-1 in the source), which the scanner's
`match` sends to the catch-all error arm. -/
def readByte (bytes : List Nat) (pos : Nat) : Option (Nat × Nat) :=
  match byteAt bytes pos with
  | some b => some (b, pos + 1)
  | none => none

/-- Model of `reader.read_be_u16()`: big-endian 2-byte read.  `none` when
the stream is too short (such a truncated multi-byte read is outside the
modelled behaviour and never arises in the theorems below). -/
def read_be_u16 (bytes : List Nat) (pos : Nat) : Option (Nat × Nat) :=
  match byteAt bytes pos, byteAt bytes (pos + 1) with
  | some b0, some b1 => some (b0 * 256 + b1, pos + 2)
  | _, _ => none

/-- Model of `reader.read_be_u32()`: big-endian 4-byte read. -/
def read_be_u32 (bytes : List Nat) (pos : Nat) : Option (Nat × Nat) :=
  match byteAt bytes pos, byteAt bytes (pos + 1),
        byteAt bytes (pos + 2), byteAt bytes (pos + 3) with
  | some b0, some b1, some b2, some b3 =>
      some (((b0 * 256 + b1) * 256 + b2) * 256 + b3, pos + 4)
  | _, _, _, _ => none

/-- Model of `reader.read_bytes(n)`: the next `n` bytes plus the advanced
position; `none` when the stream is too short. -/
def read_bytes : List Nat → Nat → Nat → Option (List Nat × Nat)
  | _, pos, 0 => some ([], pos)
  | bytes, pos, n + 1 =>
    match byteAt bytes pos, read_bytes bytes (pos + 1) n with
    | some b, some (bs, pos2) => some (b :: bs, pos2)
    | _, _ => none

/-- The scanner's failure reasons, one constructor per error string
returned by `find_5_offset` in the source. -/
inductive ScanError
  | NotAClassFile
  | MalformedConstantPool
  | ConstantNotFound
deriving DecidableEq

/-- Result of the scan: `ok offset` for `Ok(offset)`, `err e` for
`Err(msg)`. -/
inductive ScanResult
  | ok (offset : Nat)
  | err (e : ScanError)
deriving DecidableEq

/-- The target bytes `[0x31, 0x2e, 0x35]`, the UTF-8 encoding of "1.5",
compared literally in the source. -/
def k_target : List Nat := [0x31, 0x2e, 0x35]

/-- Model of the `for pool_size.times` loop of `find_5_offset`: `fuel` is
the remaining iteration count, `pos` the reader position.  Each arm mirrors
one arm of the source `match reader.read_byte()`; EOF (`readByte = none`,
the -1 sentinel) falls into the same catch-all arm as an unrecognized tag.
`none` propagates a truncated multi-byte read (unmodelled). -/
def scanLoop (bytes : List Nat) : Nat → Nat → Option ScanResult
  | 0, _ => some (ScanResult.err ScanError.ConstantNotFound)
  | fuel + 1, pos =>
    match readByte bytes pos with
    | none => some (ScanResult.err ScanError.MalformedConstantPool)
    | some (tag, pos1) =>
      if tag = 1 then
        match read_be_u16 bytes pos1 with
        | none => none
        | some (len, pos2) =>
          if len ≠ 3 then
            scanLoop bytes fuel (pos2 + len)
          else
            match read_bytes bytes pos2 len with
            | none => none
            | some (bs, pos3) =>
              if bs = k_target then some (ScanResult.ok (pos3 - 1))
              else scanLoop bytes fuel pos3
      else if tag = 3 ∨ tag = 4 ∨ tag = 9 ∨ tag = 10 ∨ tag = 11 ∨ tag = 12 then
        scanLoop bytes fuel (pos1 + 4)
      else if tag = 5 ∨ tag = 6 then
        scanLoop bytes fuel (pos1 + 8)
      else if tag = 7 ∨ tag = 8 then
        scanLoop bytes fuel (pos1 + 2)
      else some (ScanResult.err ScanError.MalformedConstantPool)

/-- Model of `find_5_offset`: read the 4-byte magic (error if it is not
`0xcafebabe`), skip 4 version bytes, read the 2-byte pool count, and run
the loop `count - 1` times.  The subtraction is the source's u16
subtraction, which wraps modulo 2^16, hence `(raw_count + 65535) % 65536`.
On a match the source returns `reader.tell() - 1`. -/
def find_5_offset (bytes : List Nat) : Option ScanResult :=
  match read_be_u32 bytes 0 with
  | none => none
  | some (magic, pos0) =>
    if magic ≠ 0xcafebabe then some (ScanResult.err ScanError.NotAClassFile)
    else
      match read_be_u16 bytes (pos0 + 4) with
      | none => none
      | some (raw_count, pos1) =>
        scanLoop bytes ((raw_count + 65535) % 65536) pos1

/-- Model of `replace_5_as_7`: `fopen(path, "r+")`, `seek(offset,
SeekSet)`, `write_u8(0x37)`, expressed on the file contents.  Seeking past
the end of the file followed by a write extends the file with zero bytes
(POSIX stdio semantics); the source checks no errors and returns unit. -/
def replace_5_as_7 (file : List Nat) (offset : Nat) : List Nat :=
  if offset < file.length then file.set offset 0x37
  else file ++ List.replicate (offset - file.length) 0 ++ [0x37]

/-- State of the files touched by `main` after the jar has been extracted:
the extracted class file's bytes, and whether the output archive was
written (`update_jar`) and the temporary directory removed
(`recursively_remove_file`). -/
structure PatchState where
  classBytes : List Nat
  archiveUpdated : Bool
  tempDirRemoved : Bool
deriving DecidableEq

/-- Model of the scan-and-patch portion of `main` (lines 16-22): on
`Ok(offset)` it patches the class file, then updates the jar and removes
the temporary directory; on `Err(msg)` it prints and returns at once, so
no file is mutated.  `none` propagates an unmodelled scan. -/
def main_core (s : PatchState) : Option PatchState :=
  match find_5_offset s.classBytes with
  | none => none
  | some (ScanResult.err _) => some s
  | some (ScanResult.ok offset) =>
      some { classBytes := replace_5_as_7 s.classBytes offset,
             archiveUpdated := true,
             tempDirRemoved := true }

/-- Serialized header of a class file: magic `0xcafebabe`, 4 version
bytes, then the 2-byte big-endian constant-pool count. -/
def classHeader (version : List Nat) (count : Nat) : List Nat :=
  0xca :: 0xfe :: 0xba :: 0xbe :: (version ++ [count / 256, count % 256])

/-- Constant-pool entry kinds as the scanner distinguishes them: a UTF-8
entry (tag 1) with its content, or a fixed-payload entry given by its tag
byte and payload bytes. -/
inductive CpEntry
  | Utf8 (content : List Nat)
  | Fixed (tag : Nat) (payload : List Nat)
deriving DecidableEq

/-- Serialization of one constant-pool entry: tag byte, then for UTF-8 the
big-endian 2-byte length followed by the content, else the raw payload. -/
def serEntry : CpEntry → List Nat
  | CpEntry.Utf8 c => 1 :: (c.length / 256) :: (c.length % 256) :: c
  | CpEntry.Fixed t p => t :: p

/-- Serialization of a whole constant pool. -/
def serPool (entries : List CpEntry) : List Nat :=
  (entries.map serEntry).flatten

/-- Well-formedness of an entry: a UTF-8 entry's length fits the 2-byte
length field; a fixed entry's tag is in the recognized set with the
payload length the scanner's skip distance for that tag. -/
def wfEntry : CpEntry → Prop
  | CpEntry.Utf8 c => c.length < 65536
  | CpEntry.Fixed t p =>
      ((t = 3 ∨ t = 4 ∨ t = 9 ∨ t = 10 ∨ t = 11 ∨ t = 12) ∧ p.length = 4)
    ∨ ((t = 5 ∨ t = 6) ∧ p.length = 8)
    ∨ ((t = 7 ∨ t = 8) ∧ p.length = 2)

instance (e : CpEntry) : Decidable (wfEntry e) :=
  match e with
  | CpEntry.Utf8 c => inferInstanceAs (Decidable (c.length < 65536))
  | CpEntry.Fixed t p => inferInstanceAs (Decidable (
      ((t = 3 ∨ t = 4 ∨ t = 9 ∨ t = 10 ∨ t = 11 ∨ t = 12) ∧ p.length = 4)
    ∨ ((t = 5 ∨ t = 6) ∧ p.length = 8)
    ∨ ((t = 7 ∨ t = 8) ∧ p.length = 2)))

/-- An entry matches when it is the UTF-8 entry with content "1.5". -/
def isMatch (e : CpEntry) : Prop := e = CpEntry.Utf8 k_target

instance (e : CpEntry) : Decidable (isMatch e) :=
  inferInstanceAs (Decidable (e = CpEntry.Utf8 k_target))

/-- A serialized class file: header with count `entries.length + 1` (slot
0 is reserved, so the declared count exceeds the number of entries by
one), the serialized pool, then arbitrary trailing bytes. -/
def classFile (version : List Nat) (entries : List CpEntry) (tail : List Nat) :
    List Nat :=
  classHeader version (entries.length + 1) ++ (serPool entries ++ tail)

/-! ## Helper lemmas about the byte-stream primitives -/

lemma byteAt_append : ∀ (pre l : List Nat) (k : Nat),
    byteAt (pre ++ l) (pre.length + k) = byteAt l k
  | [], _, _ => by simp
  | b :: pre, l, k => by
    show byteAt (b :: (pre ++ l)) (pre.length + 1 + k) = byteAt l k
    have h : pre.length + 1 + k = (pre.length + k) + 1 := by omega
    rw [h]
    exact byteAt_append pre l k

/-- Byte lookup through an explicit prefix decomposition of the stream. -/
lemma byteAt_pre (bytes pre l : List Nat) (pos k : Nat)
    (hb : bytes = pre ++ l) (hp : pos = pre.length + k) :
    byteAt bytes pos = byteAt l k := by
  subst hb; subst hp; exact byteAt_append pre l k

lemma byteAt_eof : ∀ (bytes : List Nat) (pos : Nat),
    bytes.length ≤ pos → byteAt bytes pos = none
  | [], _, _ => rfl
  | _ :: bs, pos + 1, h => byteAt_eof bs pos (by simpa using h)

lemma read_bytes_exact : ∀ (l pre suf : List Nat),
    read_bytes (pre ++ (l ++ suf)) pre.length l.length
      = some (l, pre.length + l.length)
  | [], pre, suf => by simp [read_bytes]
  | b :: l, pre, suf => by
    rw [List.length_cons, read_bytes]
    have hb : byteAt (pre ++ (b :: l ++ suf)) pre.length = some b := by
      rw [byteAt_pre (pre ++ (b :: l ++ suf)) pre (b :: (l ++ suf))
            pre.length 0 (by simp) (by omega)]
      rfl
    have hrec := read_bytes_exact l (pre ++ [b]) suf
    have hshape : (pre ++ [b]) ++ (l ++ suf) = pre ++ (b :: l ++ suf) := by
      simp
    rw [hshape] at hrec
    have hlen : (pre ++ [b]).length = pre.length + 1 := by simp
    rw [hlen] at hrec
    rw [hb, hrec]
    have : pre.length + 1 + l.length = pre.length + (l.length + 1) := by omega
    rw [this]

/-- Reading bytes through an explicit prefix decomposition. -/
lemma read_bytes_pre (bytes pre l suf : List Nat) (pos n : Nat)
    (hb : bytes = pre ++ (l ++ suf)) (hp : pos = pre.length)
    (hn : n = l.length) :
    read_bytes bytes pos n = some (l, pos + n) := by
  subst hb; subst hp; subst hn; exact read_bytes_exact l pre suf

/-! ## Single-step lemmas for the scanner loop -/

lemma scanLoop_zero (bytes : List Nat) (pos : Nat) :
    scanLoop bytes 0 pos = some (ScanResult.err ScanError.ConstantNotFound) :=
  rfl

lemma scanLoop_eof (bytes : List Nat) (fuel pos : Nat)
    (h : readByte bytes pos = none) :
    scanLoop bytes (fuel + 1) pos
      = some (ScanResult.err ScanError.MalformedConstantPool) := by
  simp [scanLoop, h]

lemma scanLoop_utf8_skip (bytes : List Nat) (fuel pos len pos2 : Nat)
    (h1 : readByte bytes pos = some (1, pos + 1))
    (h2 : read_be_u16 bytes (pos + 1) = some (len, pos2))
    (h3 : len ≠ 3) :
    scanLoop bytes (fuel + 1) pos = scanLoop bytes fuel (pos2 + len) := by
  simp [scanLoop, h1, h2, h3]

lemma scanLoop_utf8_nomatch (bytes : List Nat) (fuel pos pos2 pos3 : Nat)
    (bs : List Nat)
    (h1 : readByte bytes pos = some (1, pos + 1))
    (h2 : read_be_u16 bytes (pos + 1) = some (3, pos2))
    (h3 : read_bytes bytes pos2 3 = some (bs, pos3))
    (h4 : bs ≠ k_target) :
    scanLoop bytes (fuel + 1) pos = scanLoop bytes fuel pos3 := by
  simp [scanLoop, h1, h2, h3, h4]

lemma scanLoop_utf8_match (bytes : List Nat) (fuel pos pos2 pos3 : Nat)
    (h1 : readByte bytes pos = some (1, pos + 1))
    (h2 : read_be_u16 bytes (pos + 1) = some (3, pos2))
    (h3 : read_bytes bytes pos2 3 = some (k_target, pos3)) :
    scanLoop bytes (fuel + 1) pos = some (ScanResult.ok (pos3 - 1)) := by
  simp [scanLoop, h1, h2, h3]

lemma scanLoop_fixed4 (bytes : List Nat) (fuel pos t : Nat)
    (h1 : readByte bytes pos = some (t, pos + 1))
    (ht : t = 3 ∨ t = 4 ∨ t = 9 ∨ t = 10 ∨ t = 11 ∨ t = 12) :
    scanLoop bytes (fuel + 1) pos = scanLoop bytes fuel (pos + 1 + 4) := by
  rcases ht with h | h | h | h | h | h <;> subst h <;> simp [scanLoop, h1]

lemma scanLoop_fixed8 (bytes : List Nat) (fuel pos t : Nat)
    (h1 : readByte bytes pos = some (t, pos + 1))
    (ht : t = 5 ∨ t = 6) :
    scanLoop bytes (fuel + 1) pos = scanLoop bytes fuel (pos + 1 + 8) := by
  rcases ht with h | h <;> subst h <;> simp [scanLoop, h1]

lemma scanLoop_fixed2 (bytes : List Nat) (fuel pos t : Nat)
    (h1 : readByte bytes pos = some (t, pos + 1))
    (ht : t = 7 ∨ t = 8) :
    scanLoop bytes (fuel + 1) pos = scanLoop bytes fuel (pos + 1 + 2) := by
  rcases ht with h | h <;> subst h <;> simp [scanLoop, h1]

lemma scanLoop_badTag (bytes : List Nat) (fuel pos t pos1 : Nat)
    (h1 : readByte bytes pos = some (t, pos1))
    (ht : ¬ (t = 1 ∨ t = 3 ∨ t = 4 ∨ t = 5 ∨ t = 6 ∨ t = 7 ∨ t = 8
           ∨ t = 9 ∨ t = 10 ∨ t = 11 ∨ t = 12)) :
    scanLoop bytes (fuel + 1) pos
      = some (ScanResult.err ScanError.MalformedConstantPool) := by
  push_neg at ht
  obtain ⟨n1, n3, n4, n5, n6, n7, n8, n9, n10, n11, n12⟩ := ht
  simp [scanLoop, h1, n1, n3, n4, n5, n6, n7, n8, n9, n10, n11, n12]

/-! ## Entry-level lemmas -/

/-- The scanner advances over one well-formed, non-matching entry by
exactly the entry's serialized length, whatever its tag. -/
lemma scanLoop_skip (bytes pre rest : List Nat) (e : CpEntry) (fuel : Nat)
    (hbytes : bytes = pre ++ (serEntry e ++ rest))
    (he : wfEntry e) (hne : ¬ isMatch e) :
    scanLoop bytes (fuel + 1) pre.length
      = scanLoop bytes fuel (pre.length + (serEntry e).length) := by
  cases e with
  | Utf8 c =>
    have hb0 : byteAt bytes pre.length = some 1 := by
      rw [byteAt_pre bytes pre (serEntry (CpEntry.Utf8 c) ++ rest)
            pre.length 0 hbytes (by omega)]
      rfl
    have hb1 : byteAt bytes (pre.length + 1) = some (c.length / 256) := by
      rw [byteAt_pre bytes pre (serEntry (CpEntry.Utf8 c) ++ rest)
            (pre.length + 1) 1 hbytes (by omega)]
      rfl
    have hb2 : byteAt bytes (pre.length + 1 + 1) = some (c.length % 256) := by
      rw [byteAt_pre bytes pre (serEntry (CpEntry.Utf8 c) ++ rest)
            (pre.length + 1 + 1) 2 hbytes (by omega)]
      rfl
    have h1 : readByte bytes pre.length = some (1, pre.length + 1) := by
      simp [readByte, hb0]
    have hval : c.length / 256 * 256 + c.length % 256 = c.length := by omega
    have h2 : read_be_u16 bytes (pre.length + 1)
        = some (c.length, pre.length + 1 + 2) := by
      simp [read_be_u16, hb1, hb2, hval]
    have hlen : (serEntry (CpEntry.Utf8 c)).length = c.length + 3 := by
      simp [serEntry]
    by_cases hc3 : c.length = 3
    · have h2' : read_be_u16 bytes (pre.length + 1)
          = some (3, pre.length + 1 + 2) := by rw [h2, hc3]
      have h3 : read_bytes bytes (pre.length + 1 + 2) 3
          = some (c, pre.length + 1 + 2 + 3) := by
        refine read_bytes_pre bytes
          (pre ++ [1, c.length / 256, c.length % 256]) c rest _ 3 ?_ (by simp) hc3.symm
        rw [hbytes]
        simp [serEntry]
      have hcne : c ≠ k_target := by
        intro h
        exact hne (by simp [isMatch, h])
      rw [scanLoop_utf8_nomatch bytes fuel pre.length (pre.length + 1 + 2)
            (pre.length + 1 + 2 + 3) c h1 h2' h3 hcne]
      congr 1
      omega
    · rw [scanLoop_utf8_skip bytes fuel pre.length c.length
            (pre.length + 1 + 2) h1 h2 hc3]
      congr 1
      omega
  | Fixed t p =>
    have hb0 : byteAt bytes pre.length = some t := by
      rw [byteAt_pre bytes pre (serEntry (CpEntry.Fixed t p) ++ rest)
            pre.length 0 hbytes (by omega)]
      rfl
    have h1 : readByte bytes pre.length = some (t, pre.length + 1) := by
      simp [readByte, hb0]
    have hlen : (serEntry (CpEntry.Fixed t p)).length = p.length + 1 := by
      simp [serEntry]
    rcases he with ⟨ht, hp⟩ | ⟨ht, hp⟩ | ⟨ht, hp⟩
    · rw [scanLoop_fixed4 bytes fuel pre.length t h1 ht]
      congr 1
      omega
    · rw [scanLoop_fixed8 bytes fuel pre.length t h1 ht]
      congr 1
      omega
    · rw [scanLoop_fixed2 bytes fuel pre.length t h1 ht]
      congr 1
      omega

/-- When the next entry is the UTF-8 constant "1.5", the scanner returns
`tell() - 1`: the position just past the content, minus one, which is the
offset of the content's last byte (the '5'), five bytes past the entry's
tag. -/
lemma scanLoop_match_entry (bytes pre rest : List Nat) (fuel : Nat)
    (hbytes : bytes = pre ++ (serEntry (CpEntry.Utf8 k_target) ++ rest)) :
    scanLoop bytes (fuel + 1) pre.length
      = some (ScanResult.ok (pre.length + 5)) := by
  have hb0 : byteAt bytes pre.length = some 1 := by
    rw [byteAt_pre bytes pre (serEntry (CpEntry.Utf8 k_target) ++ rest)
          pre.length 0 hbytes (by omega)]
    rfl
  have hb1 : byteAt bytes (pre.length + 1) = some 0 := by
    rw [byteAt_pre bytes pre (serEntry (CpEntry.Utf8 k_target) ++ rest)
          (pre.length + 1) 1 hbytes (by omega)]
    rfl
  have hb2 : byteAt bytes (pre.length + 1 + 1) = some 3 := by
    rw [byteAt_pre bytes pre (serEntry (CpEntry.Utf8 k_target) ++ rest)
          (pre.length + 1 + 1) 2 hbytes (by omega)]
    rfl
  have h1 : readByte bytes pre.length = some (1, pre.length + 1) := by
    simp [readByte, hb0]
  have h2 : read_be_u16 bytes (pre.length + 1)
      = some (3, pre.length + 1 + 2) := by
    simp [read_be_u16, hb1, hb2]
  have h3 : read_bytes bytes (pre.length + 1 + 2) 3
      = some (k_target, pre.length + 1 + 2 + 3) := by
    refine read_bytes_pre bytes (pre ++ [1, 0, 3]) k_target rest _ 3 ?_
      (by simp) rfl
    rw [hbytes]
    simp [serEntry, k_target]
  rw [scanLoop_utf8_match bytes fuel pre.length (pre.length + 1 + 2)
        (pre.length + 1 + 2 + 3) h1 h2 h3]
  congr 1

/-- The scanner walks past a whole pool of well-formed, non-matching
entries, consuming one loop iteration per entry and advancing by the
pool's serialized length. -/
lemma scanLoop_skipAll : ∀ (entries : List CpEntry) (bytes pre rest : List Nat)
    (fuel : Nat), bytes = pre ++ (serPool entries ++ rest) →
    (∀ e ∈ entries, wfEntry e) → (∀ e ∈ entries, ¬ isMatch e) →
    scanLoop bytes (entries.length + fuel) pre.length
      = scanLoop bytes fuel (pre.length + (serPool entries).length)
  | [], bytes, pre, rest, fuel, _, _, _ => by simp [serPool]
  | e :: es, bytes, pre, rest, fuel, hbytes, hwf, hnm => by
    have hser : serPool (e :: es) = serEntry e ++ serPool es := by
      simp [serPool]
    have hstep := scanLoop_skip bytes pre (serPool es ++ rest) e
      (es.length + fuel) (by rw [hbytes, hser]; simp)
      (hwf e (by simp)) (hnm e (by simp))
    have hfuel : (e :: es).length + fuel = (es.length + fuel) + 1 := by
      simp [List.length_cons]
      omega
    rw [hfuel, hstep]
    have hrec := scanLoop_skipAll es bytes (pre ++ serEntry e) rest fuel
      (by rw [hbytes, hser]; simp)
      (fun x hx => hwf x (by simp [hx])) (fun x hx => hnm x (by simp [hx]))
    have hpos : pre.length + (serEntry e).length = (pre ++ serEntry e).length := by
      simp
    rw [hpos, hrec]
    have ha : (pre ++ serEntry e).length = pre.length + (serEntry e).length := by
      simp
    have hb : (serPool (e :: es)).length
        = (serEntry e).length + (serPool es).length := by
      rw [hser, List.length_append]
    congr 1
    omega

/-! ## Whole-scan lemmas -/

lemma exists_four (l : List Nat) (h : l.length = 4) :
    ∃ a b c d, l = [a, b, c, d] := by
  rcases l with _ | ⟨a, _ | ⟨b, _ | ⟨c, _ | ⟨d, _ | ⟨e, t⟩⟩⟩⟩⟩
  all_goals first
    | exact ⟨_, _, _, _, rfl⟩
    | (simp only [List.length_cons, List.length_nil] at h; omega)

lemma classHeader_length (version : List Nat) (cnt : Nat)
    (hv : version.length = 4) : (classHeader version cnt).length = 10 := by
  simp [classHeader, hv]

/-- After a valid magic, 4 skipped version bytes and the 2-byte count
`cnt`, the scan is the loop run `(cnt - 1) mod 2^16` times from
position 10. -/
lemma find_5_offset_header (version : List Nat) (cnt : Nat) (body : List Nat)
    (hv : version.length = 4) :
    find_5_offset (classHeader version cnt ++ body)
      = scanLoop (classHeader version cnt ++ body) ((cnt + 65535) % 65536) 10 := by
  obtain ⟨a, b, c, d, rfl⟩ := exists_four version hv
  have h32 : read_be_u32 (classHeader [a, b, c, d] cnt ++ body) 0
      = some (0xcafebabe, 4) := rfl
  have hb8 : byteAt (classHeader [a, b, c, d] cnt ++ body) 8
      = some (cnt / 256) := rfl
  have hb9 : byteAt (classHeader [a, b, c, d] cnt ++ body) (8 + 1)
      = some (cnt % 256) := rfl
  have hval : cnt / 256 * 256 + cnt % 256 = cnt := by omega
  have h16 : read_be_u16 (classHeader [a, b, c, d] cnt ++ body) 8
      = some (cnt, 10) := by
    simp [read_be_u16, hb8, hb9, hval]
  simp [find_5_offset, h32, h16]

lemma find_5_offset_classFile (version : List Nat) (entries : List CpEntry)
    (tail : List Nat) (hv : version.length = 4)
    (hc : entries.length + 1 < 65536) :
    find_5_offset (classFile version entries tail)
      = scanLoop (classFile version entries tail) entries.length 10 := by
  rw [classFile,
      find_5_offset_header version (entries.length + 1) (serPool entries ++ tail) hv]
  have h : (entries.length + 1 + 65535) % 65536 = entries.length := by omega
  rw [h]

/-- Scanning a class file whose pool consists of well-formed entries none
of which is the UTF-8 constant "1.5" walks the whole pool and fails with
the constant-not-found error. -/
lemma find_5_offset_noMatch (version : List Nat) (entries : List CpEntry)
    (tail : List Nat) (hv : version.length = 4)
    (hwf : ∀ e ∈ entries, wfEntry e) (hnm : ∀ e ∈ entries, ¬ isMatch e)
    (hc : entries.length + 1 < 65536) :
    find_5_offset (classFile version entries tail)
      = some (ScanResult.err ScanError.ConstantNotFound) := by
  rw [find_5_offset_classFile version entries tail hv hc]
  have h := scanLoop_skipAll entries (classFile version entries tail)
      (classHeader version (entries.length + 1)) tail 0 rfl hwf hnm
  rw [classHeader_length version (entries.length + 1) hv] at h
  simpa [scanLoop_zero] using h

/-- Scanning a class file whose pool is well-formed, non-matching entries
followed by the UTF-8 constant "1.5" (and then anything) succeeds and
returns the offset of the '5': 5 bytes past the matching entry's tag. -/
lemma find_5_offset_firstMatch (version : List Nat) (preE postE : List CpEntry)
    (tail : List Nat) (hv : version.length = 4)
    (hwf : ∀ e ∈ preE, wfEntry e) (hnm : ∀ e ∈ preE, ¬ isMatch e)
    (hc : preE.length + postE.length + 2 < 65536) :
    find_5_offset (classFile version (preE ++ CpEntry.Utf8 k_target :: postE) tail)
      = some (ScanResult.ok (10 + (serPool preE).length + 5)) := by
  have hentlen : (preE ++ CpEntry.Utf8 k_target :: postE).length
      = preE.length + (postE.length + 1) := by simp
  rw [find_5_offset_classFile version (preE ++ CpEntry.Utf8 k_target :: postE)
        tail hv (by omega)]
  have hlen10 := classHeader_length version
      ((preE ++ CpEntry.Utf8 k_target :: postE).length + 1) hv
  have hshape1 : classFile version (preE ++ CpEntry.Utf8 k_target :: postE) tail
      = classHeader version ((preE ++ CpEntry.Utf8 k_target :: postE).length + 1)
        ++ (serPool preE ++ (serEntry (CpEntry.Utf8 k_target)
            ++ (serPool postE ++ tail))) := by
    rw [classFile]
    congr 1
    simp [serPool]
  have hskip := scanLoop_skipAll preE
      (classFile version (preE ++ CpEntry.Utf8 k_target :: postE) tail)
      (classHeader version ((preE ++ CpEntry.Utf8 k_target :: postE).length + 1))
      (serEntry (CpEntry.Utf8 k_target) ++ (serPool postE ++ tail))
      (postE.length + 1) hshape1 hwf hnm
  rw [hlen10] at hskip
  have hshape2 : classFile version (preE ++ CpEntry.Utf8 k_target :: postE) tail
      = (classHeader version ((preE ++ CpEntry.Utf8 k_target :: postE).length + 1)
          ++ serPool preE)
        ++ (serEntry (CpEntry.Utf8 k_target) ++ (serPool postE ++ tail)) := by
    rw [hshape1]
    simp
  have hmatch := scanLoop_match_entry
      (classFile version (preE ++ CpEntry.Utf8 k_target :: postE) tail)
      (classHeader version ((preE ++ CpEntry.Utf8 k_target :: postE).length + 1)
        ++ serPool preE)
      (serPool postE ++ tail) postE.length hshape2
  have hplen : (classHeader version ((preE ++ CpEntry.Utf8 k_target :: postE).length + 1)
      ++ serPool preE).length = 10 + (serPool preE).length := by
    rw [List.length_append, hlen10]
  rw [hplen] at hmatch
  rw [hentlen, hskip, hmatch]

/-! ## Patcher lemmas -/

lemma byteAt_set_same : ∀ (l : List Nat) (n v : Nat), n < l.length →
    byteAt (l.set n v) n = some v
  | [], _, _, h => by simp at h
  | _ :: _, 0, _, _ => rfl
  | _ :: l, n + 1, v, h => byteAt_set_same l n v (by simpa using h)

lemma byteAt_set_other : ∀ (l : List Nat) (n i v : Nat), i ≠ n →
    byteAt (l.set n v) i = byteAt l i
  | [], _, _, _, _ => rfl
  | _ :: _, 0, 0, _, h => absurd rfl h
  | _ :: _, 0, _ + 1, _, _ => rfl
  | _ :: _, _ + 1, 0, _, _ => rfl
  | _ :: l, n + 1, i + 1, v, h =>
      byteAt_set_other l n i v (fun hh => h (by rw [hh]))

/-! ## Claim theorems -/

/-- C1: for any well-formed class file whose constant pool holds the UTF-8
entry "1.5" preceded only by well-formed non-matching entries (in
particular, when it is the only such entry), the scan succeeds and the
byte of the stream at the returned offset is 0x35, the character '5'. -/
theorem C1_scan_offset_reads_0x35 (version : List Nat) (preE postE : List CpEntry)
    (tail : List Nat) (hv : version.length = 4)
    (hwf : ∀ e ∈ preE, wfEntry e) (hnm : ∀ e ∈ preE, ¬ isMatch e)
    (hc : preE.length + postE.length + 2 < 65536) :
    find_5_offset (classFile version (preE ++ CpEntry.Utf8 k_target :: postE) tail)
      = some (ScanResult.ok (10 + (serPool preE).length + 5))
    ∧ byteAt (classFile version (preE ++ CpEntry.Utf8 k_target :: postE) tail)
        (10 + (serPool preE).length + 5) = some 0x35 := by
  constructor
  · exact find_5_offset_firstMatch version preE postE tail hv hwf hnm hc
  · have hlen10 := classHeader_length version
        ((preE ++ CpEntry.Utf8 k_target :: postE).length + 1) hv
    have hshape2 : classFile version (preE ++ CpEntry.Utf8 k_target :: postE) tail
        = (classHeader version ((preE ++ CpEntry.Utf8 k_target :: postE).length + 1)
            ++ serPool preE)
          ++ (serEntry (CpEntry.Utf8 k_target) ++ (serPool postE ++ tail)) := by
      rw [classFile]
      simp [serPool]
    rw [byteAt_pre _ _ _ _ 5 hshape2 (by rw [List.length_append, hlen10])]
    rfl

theorem C1_scan_offset_reads_0x35_witness :
    find_5_offset (classFile [0, 0, 0, 0] [CpEntry.Utf8 k_target] [])
      = some (ScanResult.ok 15)
    ∧ byteAt (classFile [0, 0, 0, 0] [CpEntry.Utf8 k_target] []) 15
      = some 0x35 :=
  C1_scan_offset_reads_0x35 [0, 0, 0, 0] [] [] [] rfl
    (fun e he => absurd he (List.not_mem_nil e))
    (fun e he => absurd he (List.not_mem_nil e))
    (by decide)

/-- C2 counterexample: on a minimal class file the matched content "1.5"
begins at byte offset 13 (the stream byte there is 0x31, the '1') and the
reader position after reading the 3 content bytes is 16, yet the scan
returns 15, not `position_after_read - 3 = 13` as the claim states. -/
theorem C2_offset_is_not_content_start :
    find_5_offset [0xca, 0xfe, 0xba, 0xbe, 0, 0, 0, 0, 0, 2,
                   1, 0, 3, 0x31, 0x2e, 0x35] = some (ScanResult.ok 15)
    ∧ byteAt [0xca, 0xfe, 0xba, 0xbe, 0, 0, 0, 0, 0, 2,
              1, 0, 3, 0x31, 0x2e, 0x35] 13 = some 0x31
    ∧ (15 : Nat) ≠ 16 - 3 := by
  decide

/-- C2 amended: whenever the scan succeeds on a matched UTF-8 entry, the
offset it returns is `position_after_read - 1` — the offset of the LAST
byte of the matched content (the '5' of "1.5"), not the offset at which
the content begins.  Here the content begins at
`10 + (serPool preE).length + 3` and the position after reading it is
that plus `k_target.length`. -/
theorem C2_amended_offset_is_tell_minus_one (version : List Nat)
    (preE postE : List CpEntry) (tail : List Nat) (hv : version.length = 4)
    (hwf : ∀ e ∈ preE, wfEntry e) (hnm : ∀ e ∈ preE, ¬ isMatch e)
    (hc : preE.length + postE.length + 2 < 65536) :
    find_5_offset (classFile version (preE ++ CpEntry.Utf8 k_target :: postE) tail)
      = some (ScanResult.ok
          (10 + (serPool preE).length + 3 + k_target.length - 1)) := by
  have hk : k_target.length = 3 := rfl
  have harith : 10 + (serPool preE).length + 3 + k_target.length - 1
      = 10 + (serPool preE).length + 5 := by omega
  rw [harith]
  exact find_5_offset_firstMatch version preE postE tail hv hwf hnm hc

theorem C2_amended_offset_is_tell_minus_one_witness :
    find_5_offset (classFile [0, 0, 0, 51]
        [CpEntry.Fixed 7 [0, 1], CpEntry.Utf8 k_target] [0xff])
      = some (ScanResult.ok 18) :=
  C2_amended_offset_is_tell_minus_one [0, 0, 0, 51] [CpEntry.Fixed 7 [0, 1]]
    [] [0xff] rfl (by decide) (by decide) (by decide)

/-- C3 counterexample: with offset 3 on the one-byte file [0x35], the
patch extends the file to four bytes, so the result is not identical to
the input except for one byte — the claim fails for out-of-range
offsets. -/
theorem C3_patch_can_extend_file :
    replace_5_as_7 [0x35] 3 = [0x35, 0, 0, 0x37]
    ∧ (replace_5_as_7 [0x35] 3).length ≠ ([0x35] : List Nat).length := by
  decide

/-- C3 amended: for every offset strictly inside the file, the patched
file has the same length, holds 0x37 ('7') at the given offset, and every
other byte is unchanged. -/
theorem C3_amended_in_bounds_frame (file : List Nat) (offset : Nat)
    (h : offset < file.length) :
    (replace_5_as_7 file offset).length = file.length
    ∧ byteAt (replace_5_as_7 file offset) offset = some 0x37
    ∧ ∀ i, i ≠ offset → byteAt (replace_5_as_7 file offset) i = byteAt file i := by
  have hdef : replace_5_as_7 file offset = file.set offset 0x37 := by
    simp [replace_5_as_7, h]
  rw [hdef]
  refine ⟨by simp, byteAt_set_same file offset 0x37 h, ?_⟩
  intro i hi
  exact byteAt_set_other file offset i 0x37 hi

theorem C3_amended_in_bounds_frame_witness :
    (replace_5_as_7 [0x31, 0x2e, 0x35] 2).length = 3
    ∧ byteAt (replace_5_as_7 [0x31, 0x2e, 0x35] 2) 2 = some 0x37
    ∧ byteAt (replace_5_as_7 [0x31, 0x2e, 0x35] 2) 0
      = byteAt [0x31, 0x2e, 0x35] 0 :=
  ⟨(C3_amended_in_bounds_frame [0x31, 0x2e, 0x35] 2 (by decide)).1,
   (C3_amended_in_bounds_frame [0x31, 0x2e, 0x35] 2 (by decide)).2.1,
   (C3_amended_in_bounds_frame [0x31, 0x2e, 0x35] 2 (by decide)).2.2 0 (by decide)⟩

/-- C4: whenever the scan fails, `main` prints the message and returns
before calling `replace_5_as_7`, `update_jar` or
`recursively_remove_file`: the class file, the output archive and the
temporary directory are untouched. -/
theorem C4_scan_error_no_mutation (s : PatchState) (e : ScanError)
    (h : find_5_offset s.classBytes = some (ScanResult.err e)) :
    main_core s = some s := by
  simp [main_core, h]

theorem C4_scan_error_no_mutation_witness :
    main_core ⟨[0, 0, 0, 0], false, false⟩
      = some ⟨[0, 0, 0, 0], false, false⟩ :=
  C4_scan_error_no_mutation ⟨[0, 0, 0, 0], false, false⟩
    ScanError.NotAClassFile (by decide)

/-- C5: on a valid-magic stream with declared count `entries.length + 1`,
the scan iterates once per entry (count minus one iterations), advancing
past each well-formed entry by its tag-determined length — 4 bytes for
tags 3,4,9,10,11,12; 8 for tags 5,6; 2 for tags 7,8; and the 2-byte
length field plus that many content bytes for non-matching tag-1 entries —
and, when no entry is the constant "1.5", ends with the
constant-not-found error. -/
theorem C5_walk_pool_constant_not_found (version : List Nat)
    (entries : List CpEntry) (tail : List Nat) (hv : version.length = 4)
    (hwf : ∀ e ∈ entries, wfEntry e) (hnm : ∀ e ∈ entries, ¬ isMatch e)
    (hc : entries.length + 1 < 65536) :
    find_5_offset (classFile version entries tail)
      = some (ScanResult.err ScanError.ConstantNotFound) :=
  find_5_offset_noMatch version entries tail hv hwf hnm hc

theorem C5_walk_pool_constant_not_found_witness :
    find_5_offset (classFile [0, 0, 0, 0]
        [CpEntry.Fixed 3 [1, 2, 3, 4], CpEntry.Fixed 4 [1, 2, 3, 4],
         CpEntry.Fixed 9 [1, 2, 3, 4], CpEntry.Fixed 10 [1, 2, 3, 4],
         CpEntry.Fixed 11 [1, 2, 3, 4], CpEntry.Fixed 12 [1, 2, 3, 4],
         CpEntry.Fixed 5 [1, 2, 3, 4, 5, 6, 7, 8],
         CpEntry.Fixed 6 [1, 2, 3, 4, 5, 6, 7, 8],
         CpEntry.Fixed 7 [1, 2], CpEntry.Fixed 8 [1, 2],
         CpEntry.Utf8 [0x31, 0x2e, 0x37],
         CpEntry.Utf8 [0x31, 0x2e, 0x35, 0x30]] [])
      = some (ScanResult.err ScanError.ConstantNotFound) :=
  C5_walk_pool_constant_not_found [0, 0, 0, 0] _ [] rfl
    (by decide) (by decide) (by decide)

/-- C6: a UTF-8 entry matches only on exact declared length 3 and exact
bytes: an entry with content "1.50" (declared length 4), wherever it sits
in the pool, is skipped and never treated as a match, so a pool of
otherwise non-matching entries containing it still ends in
constant-not-found. -/
theorem C6_length_4_entry_never_matches (version : List Nat)
    (preE postE : List CpEntry) (tail : List Nat) (hv : version.length = 4)
    (hwf1 : ∀ e ∈ preE, wfEntry e) (hnm1 : ∀ e ∈ preE, ¬ isMatch e)
    (hwf2 : ∀ e ∈ postE, wfEntry e) (hnm2 : ∀ e ∈ postE, ¬ isMatch e)
    (hc : preE.length + postE.length + 2 < 65536) :
    find_5_offset (classFile version
        (preE ++ CpEntry.Utf8 [0x31, 0x2e, 0x35, 0x30] :: postE) tail)
      = some (ScanResult.err ScanError.ConstantNotFound) := by
  have hl : (preE ++ CpEntry.Utf8 [0x31, 0x2e, 0x35, 0x30] :: postE).length
      = preE.length + (postE.length + 1) := by simp
  apply find_5_offset_noMatch version _ tail hv
  · intro e he
    rw [List.mem_append] at he
    rcases he with h | h
    · exact hwf1 e h
    · rw [List.mem_cons] at h
      rcases h with h | h
      · subst h
        decide
      · exact hwf2 e h
  · intro e he
    rw [List.mem_append] at he
    rcases he with h | h
    · exact hnm1 e h
    · rw [List.mem_cons] at h
      rcases h with h | h
      · subst h
        decide
      · exact hnm2 e h
  · omega

theorem C6_length_4_entry_never_matches_witness :
    find_5_offset (classFile [0, 0, 0, 0]
        ([CpEntry.Fixed 7 [1, 2]]
          ++ CpEntry.Utf8 [0x31, 0x2e, 0x35, 0x30]
            :: [CpEntry.Utf8 [0x31, 0x2e, 0x37]]) [])
      = some (ScanResult.err ScanError.ConstantNotFound) :=
  C6_length_4_entry_never_matches [0, 0, 0, 0] [CpEntry.Fixed 7 [1, 2]]
    [CpEntry.Utf8 [0x31, 0x2e, 0x37]] [] rfl
    (by decide) (by decide) (by decide) (by decide) (by decide)

/-- C7: when the first 4 bytes, read big-endian, are not 0xCAFEBABE, the
scan returns the not-a-class-file error at once; the model returns it
before the version fields or the pool count are ever read. -/
theorem C7_bad_magic_not_a_class_file (bytes : List Nat) (magic : Nat)
    (hr : read_be_u32 bytes 0 = some (magic, 4))
    (hm : magic ≠ 0xcafebabe) :
    find_5_offset bytes = some (ScanResult.err ScanError.NotAClassFile) := by
  simp [find_5_offset, hr, hm]

theorem C7_bad_magic_not_a_class_file_witness :
    find_5_offset [0, 0, 0, 0]
      = some (ScanResult.err ScanError.NotAClassFile) :=
  C7_bad_magic_not_a_class_file [0, 0, 0, 0] 0 (by decide) (by decide)

/-- C8: when, with iterations still remaining and no match found, the
scanner reads a tag byte outside the recognized set
{1,3,4,5,6,7,8,9,10,11,12} (for example 0), it returns the malformed
constant pool error. -/
theorem C8_unrecognized_tag_malformed_pool (version : List Nat)
    (preE : List CpEntry) (t cnt : Nat) (rest : List Nat)
    (hv : version.length = 4)
    (hwf : ∀ e ∈ preE, wfEntry e) (hnm : ∀ e ∈ preE, ¬ isMatch e)
    (hcnt : preE.length + 2 ≤ cnt) (hc : cnt < 65536)
    (ht : ¬ (t = 1 ∨ t = 3 ∨ t = 4 ∨ t = 5 ∨ t = 6 ∨ t = 7 ∨ t = 8
           ∨ t = 9 ∨ t = 10 ∨ t = 11 ∨ t = 12)) :
    find_5_offset (classHeader version cnt ++ (serPool preE ++ t :: rest))
      = some (ScanResult.err ScanError.MalformedConstantPool) := by
  rw [find_5_offset_header version cnt (serPool preE ++ t :: rest) hv]
  have hwrap : (cnt + 65535) % 65536 = cnt - 1 := by omega
  rw [hwrap]
  have hfuel : cnt - 1 = preE.length + ((cnt - 2 - preE.length) + 1) := by omega
  rw [hfuel]
  have hlen10 := classHeader_length version cnt hv
  have hskip := scanLoop_skipAll preE
      (classHeader version cnt ++ (serPool preE ++ t :: rest))
      (classHeader version cnt) (t :: rest)
      ((cnt - 2 - preE.length) + 1) rfl hwf hnm
  rw [hlen10] at hskip
  rw [hskip]
  have hb : byteAt (classHeader version cnt ++ (serPool preE ++ t :: rest))
      (10 + (serPool preE).length) = some t := by
    rw [byteAt_pre _ (classHeader version cnt ++ serPool preE) (t :: rest)
          _ 0 (by simp) (by simp [hlen10])]
    rfl
  have h1 : readByte (classHeader version cnt ++ (serPool preE ++ t :: rest))
      (10 + (serPool preE).length)
      = some (t, 10 + (serPool preE).length + 1) := by
    simp [readByte, hb]
  exact scanLoop_badTag _ (cnt - 2 - preE.length) (10 + (serPool preE).length)
    t _ h1 ht

theorem C8_unrecognized_tag_malformed_pool_witness :
    find_5_offset (classHeader [0, 0, 0, 0] 2 ++ (serPool [] ++ 0 :: []))
      = some (ScanResult.err ScanError.MalformedConstantPool) :=
  C8_unrecognized_tag_malformed_pool [0, 0, 0, 0] [] 0 2 [] rfl
    (by decide) (by decide) (by decide) (by decide) (by decide)

/-- C10: the iteration count is the u16 subtraction `raw_count - 1`, which
wraps modulo 2^16: with declared count 0 the scan runs the loop with a
budget of 65535 iterations on whatever follows the count, and with
nothing following it fails inside the first iteration (EOF read in the
catch-all arm) instead of returning at once with zero iterations. -/
theorem C10_zero_count_wraps_to_65535 (version body : List Nat)
    (hv : version.length = 4) :
    find_5_offset (classHeader version 0 ++ body)
      = scanLoop (classHeader version 0 ++ body) 65535 10
    ∧ find_5_offset (classHeader version 0 ++ [])
      = some (ScanResult.err ScanError.MalformedConstantPool) := by
  constructor
  · rw [find_5_offset_header version 0 body hv]
  · rw [find_5_offset_header version 0 [] hv, List.append_nil]
    have heof : readByte (classHeader version 0) 10 = none := by
      simp [readByte, byteAt_eof (classHeader version 0) 10
              (classHeader_length version 0 hv).le]
    exact scanLoop_eof _ 65534 10 heof

theorem C10_zero_count_wraps_to_65535_witness :
    find_5_offset (classHeader [0, 0, 0, 0] 0 ++ [9])
      = scanLoop (classHeader [0, 0, 0, 0] 0 ++ [9]) 65535 10
    ∧ find_5_offset (classHeader [0, 0, 0, 0] 0 ++ [])
      = some (ScanResult.err ScanError.MalformedConstantPool) :=
  C10_zero_count_wraps_to_65535 [0, 0, 0, 0] [9] rfl

/-- C9 counterexample: the patcher reports no I/O failure even when the
seek target exceeds the file length — on the empty file with offset 2 it
completes and produces a modified (extended) file instead of leaving the
file untouched with an error result. -/
theorem C9_patch_reports_no_io_error :
    replace_5_as_7 [] 2 = [0, 0, 0x37] ∧ replace_5_as_7 [] 2 ≠ [] := by
  decide

/-- C9 amended: the patch operation has no error channel: for every file
and offset it completes, leaving 0x37 at the offset; when the offset is
past the end the file is zero-extended (the result's length is the
maximum of the old length and offset + 1). -/
theorem C9_amended_patch_always_writes (file : List Nat) (offset : Nat) :
    byteAt (replace_5_as_7 file offset) offset = some 0x37
    ∧ (replace_5_as_7 file offset).length = max file.length (offset + 1) := by
  by_cases h : offset < file.length
  · have hdef : replace_5_as_7 file offset = file.set offset 0x37 := by
      simp [replace_5_as_7, h]
    rw [hdef]
    constructor
    · exact byteAt_set_same file offset 0x37 h
    · simp
      omega
  · have hdef : replace_5_as_7 file offset
        = file ++ (List.replicate (offset - file.length) 0 ++ [0x37]) := by
      simp [replace_5_as_7, h]
    rw [hdef]
    constructor
    · rw [byteAt_pre _ file (List.replicate (offset - file.length) 0 ++ [0x37])
            offset (offset - file.length) rfl (by omega)]
      rw [byteAt_pre _ (List.replicate (offset - file.length) 0) [0x37]
            (offset - file.length) 0 rfl (by simp)]
      rfl
    · simp
      omega
